import Mathlib

/-!
Shallow embedding of `src/cache/core.py` (`VelocityCache`): an in-process
LRU + TTL key-value cache backed by a Python `OrderedDict`.

The ordered dictionary is embedded as an association list
`List (String × Entry)` whose order is the recency order of the Python
`OrderedDict`: head = least-recently-used, last = most-recently-used.
Time (`time.time()`) is passed explicitly as an integer parameter `now`;
expiry times and TTLs are integers (`Option Int`), with `none` meaning
"never expires".  Python `ValueError` raised by argument validation is
embedded as `Except CacheError`, where an `.error` result means the call
raised before touching any state (the state is therefore unmodified).
Values stored in the cache are embedded as `Int`.
-/

namespace Velocity

/-- Python `ValueError` raised by argument validation (`InvalidArgument`
in the specification's taxonomy). -/
inductive CacheError where
  | invalidArgument
deriving DecidableEq

/-- An entry of the ordered dictionary: `(value, expiry_time)`, as stored
by `VelocityCache.set` (`core.py` line 123). `none` expiry means no
expiration. -/
abbrev Entry := Int × Option Int

/-- The state of a `VelocityCache` instance: the ordered dictionary
`_cache` (head = least recently used), `_max_size`, and the four metric
counters. -/
structure VelocityCache where
  cache : List (String × Entry)
  maxSize : Nat
  hits : Nat
  misses : Nat
  evictions : Nat
  expirations : Nat
deriving DecidableEq

/-- `VelocityCache.__init__` (`core.py` lines 28-50): rejects
non-positive `max_size`, otherwise starts empty with zeroed counters. -/
def mkCache (maxSize : Int) : Except CacheError VelocityCache :=
  if maxSize ≤ 0 then .error .invalidArgument
  else .ok { cache := [], maxSize := maxSize.toNat,
             hits := 0, misses := 0, evictions := 0, expirations := 0 }

/-- Python `key in od` / `od[key]` on the ordered dictionary: find the
entry stored under `k`, if any. -/
def odLookup (l : List (String × Entry)) (k : String) : Option Entry :=
  match l with
  | [] => none
  | (k0, e) :: rest => if k0 = k then some e else odLookup rest k

/-- Python `del od[key]` / `od.pop(key)`: remove the binding of `k`
(association lists built by the operations bind each key at most once). -/
def odErase (l : List (String × Entry)) (k : String) : List (String × Entry) :=
  match l with
  | [] => []
  | (k0, e) :: rest => if k0 = k then rest else (k0, e) :: odErase rest k

/-- Python `od[key] = entry` on a key that is already present: overwrite
the entry in place, keeping the key's position in the order. -/
def odUpdate (l : List (String × Entry)) (k : String) (e : Entry) :
    List (String × Entry) :=
  match l with
  | [] => []
  | (k0, e0) :: rest =>
      if k0 = k then (k0, e) :: rest else (k0, e0) :: odUpdate rest k e

/-- Python `od.move_to_end(key)`: reposition `k` to the
most-recently-used end (only ever called on present keys). -/
def moveToEnd (l : List (String × Entry)) (k : String) :
    List (String × Entry) :=
  match odLookup l k with
  | none => l
  | some e => odErase l k ++ [(k, e)]

/-- The expiry test used throughout `core.py`:
`expiry_time is not None and time.time() > expiry_time`. -/
def isExpired (now : Int) (e : Option Int) : Bool :=
  match e with
  | none => false
  | some t => decide (t < now)

/-- The TTL validation test of `set` (`core.py` line 104):
`ttl is not None and ttl < 0`. -/
def negTTL (ttl : Option Int) : Bool :=
  match ttl with
  | none => false
  | some t => decide (t < 0)

/-- Expiry computation of `set` (`core.py` lines 109-111):
`time.time() + ttl` when a TTL is given, else `None`. -/
def mkExpiry (now : Int) (ttl : Option Int) : Option Int :=
  ttl.map (fun t => now + t)

/-- `VelocityCache.get` (`core.py` lines 52-86). Raises on empty key;
absent key records a miss; expired key is physically removed and records
a miss and an expiration; live key is moved to the most-recently-used end
and records a hit, returning the value. -/
def get (s : VelocityCache) (now : Int) (key : String) :
    Except CacheError (Option Int × VelocityCache) :=
  if key = "" then .error .invalidArgument
  else
    match odLookup s.cache key with
    | none => .ok (none, { s with misses := s.misses + 1 })
    | some (value, expiry) =>
        if isExpired now expiry then
          .ok (none, { s with cache := odErase s.cache key,
                              misses := s.misses + 1,
                              expirations := s.expirations + 1 })
        else
          .ok (some value, { s with cache := moveToEnd s.cache key,
                                    hits := s.hits + 1 })

/-- `VelocityCache.set` (`core.py` lines 88-123). Raises on empty key or
negative TTL; updates a present key in place and repositions it to the
most-recently-used end; otherwise evicts the least-recently-used (first)
entry when at capacity (`len >= max_size`, counting one eviction) and
appends the new entry at the most-recently-used end. -/
def set (s : VelocityCache) (now : Int) (key : String) (value : Int)
    (ttl : Option Int) : Except CacheError VelocityCache :=
  if key = "" then .error .invalidArgument
  else if negTTL ttl then .error .invalidArgument
  else
    let expiry := mkExpiry now ttl
    match odLookup s.cache key with
    | some _ =>
        .ok { s with cache := moveToEnd (odUpdate s.cache key (value, expiry)) key }
    | none =>
        if s.maxSize ≤ s.cache.length then
          .ok { s with cache := s.cache.tail ++ [(key, (value, expiry))],
                       evictions := s.evictions + 1 }
        else
          .ok { s with cache := s.cache ++ [(key, (value, expiry))] }

/-- `VelocityCache.delete` (`core.py` lines 125-154). Raises on empty
key; pops the entry if present; if the popped entry was already expired,
counts an expiration and returns absent; otherwise returns the value. -/
def delete (s : VelocityCache) (now : Int) (key : String) :
    Except CacheError (Option Int × VelocityCache) :=
  if key = "" then .error .invalidArgument
  else
    match odLookup s.cache key with
    | none => .ok (none, s)
    | some (value, expiry) =>
        if isExpired now expiry then
          .ok (none, { s with cache := odErase s.cache key,
                              expirations := s.expirations + 1 })
        else
          .ok (some value, { s with cache := odErase s.cache key })

/-- `VelocityCache.exists` (`core.py` lines 156-184). Empty key returns
`false` without error; an expired entry is removed (counting one
expiration) and `false` returned; a live entry returns `true`.  Note: the
code never calls `move_to_end` here and never touches hits/misses. -/
def existsKey (s : VelocityCache) (now : Int) (key : String) :
    Bool × VelocityCache :=
  if key = "" then (false, s)
  else
    match odLookup s.cache key with
    | none => (false, s)
    | some (_, expiry) =>
        if isExpired now expiry then
          (false, { s with cache := odErase s.cache key,
                           expirations := s.expirations + 1 })
        else
          (true, s)

/-- `VelocityCache.size` (`core.py` lines 186-195): `len(self._cache)`,
including expired entries not yet swept. -/
def size (s : VelocityCache) : Nat :=
  s.cache.length

/-- `VelocityCache.clear` (`core.py` lines 197-203): empties the ordered
dictionary; the metric counters are not touched. -/
def clear (s : VelocityCache) : VelocityCache :=
  { s with cache := [] }

/-- `VelocityCache.keys` (`core.py` lines 205-216): the stored keys from
least- to most-recently-used. -/
def keysList (s : VelocityCache) : List String :=
  s.cache.map Prod.fst

/-- `VelocityCache.__contains__` (`core.py` lines 238-252): pure
structural presence check, no expiry test, no side effects. -/
def contains (s : VelocityCache) (key : String) : Bool :=
  (odLookup s.cache key).isSome

/-- One public mutating call on the cache, with its `time.time()` value. -/
inductive Op where
  | getOp (now : Int) (key : String)
  | setOp (now : Int) (key : String) (value : Int) (ttl : Option Int)
  | delOp (now : Int) (key : String)
  | existsOp (now : Int) (key : String)
  | clearOp

/-- Apply one operation to the cache state.  A call whose argument
validation raises leaves the state unmodified (the exception propagates
before any state is touched). -/
def applyOp (s : VelocityCache) (op : Op) : VelocityCache :=
  match op with
  | .getOp now key =>
      match get s now key with
      | .ok (_, s1) => s1
      | .error _ => s
  | .setOp now key value ttl =>
      match set s now key value ttl with
      | .ok s1 => s1
      | .error _ => s
  | .delOp now key =>
      match delete s now key with
      | .ok (_, s1) => s1
      | .error _ => s
  | .existsOp now key => (existsKey s now key).2
  | .clearOp => clear s

/-! ### Lemmas about the ordered-dictionary operations -/

theorem odErase_length_le (l : List (String × Entry)) (k : String) :
    (odErase l k).length ≤ l.length := by
  induction l with
  | nil => simp [odErase]
  | cons a rest ih =>
    obtain ⟨k0, e⟩ := a
    by_cases h : k0 = k
    · simp [odErase, h]
    · simp [odErase, h]
      omega

theorem odErase_length_of_lookup (l : List (String × Entry)) (k : String)
    (e : Entry) (h : odLookup l k = some e) :
    l.length = (odErase l k).length + 1 := by
  induction l with
  | nil => simp [odLookup] at h
  | cons a rest ih =>
    obtain ⟨k0, e0⟩ := a
    by_cases hk : k0 = k
    · simp [odErase, hk]
    · simp only [odLookup, if_neg hk] at h
      simp [odErase, hk, ih h]

theorem odUpdate_length (l : List (String × Entry)) (k : String) (e : Entry) :
    (odUpdate l k e).length = l.length := by
  induction l with
  | nil => rfl
  | cons a rest ih =>
    obtain ⟨k0, e0⟩ := a
    by_cases h : k0 = k <;> simp [odUpdate, h, ih]

theorem odLookup_odUpdate_of_some (l : List (String × Entry)) (k : String)
    (e e0 : Entry) (h : odLookup l k = some e0) :
    odLookup (odUpdate l k e) k = some e := by
  induction l with
  | nil => simp [odLookup] at h
  | cons a rest ih =>
    obtain ⟨k0, e1⟩ := a
    by_cases hk : k0 = k
    · simp [odUpdate, odLookup, hk]
    · simp only [odLookup, if_neg hk] at h
      simp [odUpdate, odLookup, hk, ih h]

theorem odErase_odUpdate (l : List (String × Entry)) (k : String) (e : Entry) :
    odErase (odUpdate l k e) k = odErase l k := by
  induction l with
  | nil => rfl
  | cons a rest ih =>
    obtain ⟨k0, e0⟩ := a
    by_cases hk : k0 = k <;> simp [odUpdate, odErase, hk, ih]

theorem moveToEnd_of_lookup (l : List (String × Entry)) (k : String)
    (e : Entry) (h : odLookup l k = some e) :
    moveToEnd l k = odErase l k ++ [(k, e)] := by
  simp [moveToEnd, h]

theorem moveToEnd_length (l : List (String × Entry)) (k : String)
    (e : Entry) (h : odLookup l k = some e) :
    (moveToEnd l k).length = l.length := by
  have h1 := odErase_length_of_lookup l k e h
  simp [moveToEnd_of_lookup l k e h]
  omega


/-! ### Branch characterizations of the public operations -/

theorem get_absent (s : VelocityCache) (now : Int) (key : String)
    (hk : ¬ key = "") (h : odLookup s.cache key = none) :
    get s now key = .ok (none, { s with misses := s.misses + 1 }) := by
  simp [get, hk, h]

theorem get_expired (s : VelocityCache) (now : Int) (key : String)
    (v : Int) (e : Option Int) (hk : ¬ key = "")
    (h : odLookup s.cache key = some (v, e)) (hx : isExpired now e = true) :
    get s now key = .ok (none, { s with cache := odErase s.cache key,
                                        misses := s.misses + 1,
                                        expirations := s.expirations + 1 }) := by
  simp [get, hk, h, hx]

theorem get_live (s : VelocityCache) (now : Int) (key : String)
    (v : Int) (e : Option Int) (hk : ¬ key = "")
    (h : odLookup s.cache key = some (v, e)) (hx : isExpired now e = false) :
    get s now key = .ok (some v,
      { s with cache := odErase s.cache key ++ [(key, (v, e))],
               hits := s.hits + 1 }) := by
  simp [get, hk, h, hx, moveToEnd_of_lookup _ _ _ h]

theorem set_present (s : VelocityCache) (now : Int) (key : String)
    (v : Int) (ttl : Option Int) (e0 : Entry) (hk : ¬ key = "")
    (ht : negTTL ttl = false) (h : odLookup s.cache key = some e0) :
    set s now key v ttl =
      .ok { s with cache := odErase s.cache key ++ [(key, (v, mkExpiry now ttl))] } := by
  simp only [set, if_neg hk, ht, Bool.false_eq_true, if_false, h]
  rw [moveToEnd_of_lookup _ _ _ (odLookup_odUpdate_of_some _ _ _ _ h),
    odErase_odUpdate]

theorem set_new_evict (s : VelocityCache) (now : Int) (key : String)
    (v : Int) (ttl : Option Int) (hk : ¬ key = "")
    (ht : negTTL ttl = false) (h : odLookup s.cache key = none)
    (hfull : s.maxSize ≤ s.cache.length) :
    set s now key v ttl =
      .ok { s with cache := s.cache.tail ++ [(key, (v, mkExpiry now ttl))],
                   evictions := s.evictions + 1 } := by
  simp [set, hk, ht, h, hfull]

theorem set_new_room (s : VelocityCache) (now : Int) (key : String)
    (v : Int) (ttl : Option Int) (hk : ¬ key = "")
    (ht : negTTL ttl = false) (h : odLookup s.cache key = none)
    (hroom : s.cache.length < s.maxSize) :
    set s now key v ttl =
      .ok { s with cache := s.cache ++ [(key, (v, mkExpiry now ttl))] } := by
  simp [set, hk, ht, h, Nat.not_le.mpr hroom]

theorem delete_absent (s : VelocityCache) (now : Int) (key : String)
    (hk : ¬ key = "") (h : odLookup s.cache key = none) :
    delete s now key = .ok (none, s) := by
  simp [delete, hk, h]

theorem delete_expired (s : VelocityCache) (now : Int) (key : String)
    (v : Int) (e : Option Int) (hk : ¬ key = "")
    (h : odLookup s.cache key = some (v, e)) (hx : isExpired now e = true) :
    delete s now key = .ok (none, { s with cache := odErase s.cache key,
                                           expirations := s.expirations + 1 }) := by
  simp [delete, hk, h, hx]

theorem delete_live (s : VelocityCache) (now : Int) (key : String)
    (v : Int) (e : Option Int) (hk : ¬ key = "")
    (h : odLookup s.cache key = some (v, e)) (hx : isExpired now e = false) :
    delete s now key = .ok (some v, { s with cache := odErase s.cache key }) := by
  simp [delete, hk, h, hx]

theorem existsKey_absent (s : VelocityCache) (now : Int) (key : String)
    (hk : ¬ key = "") (h : odLookup s.cache key = none) :
    existsKey s now key = (false, s) := by
  simp [existsKey, hk, h]

theorem existsKey_expired (s : VelocityCache) (now : Int) (key : String)
    (v : Int) (e : Option Int) (hk : ¬ key = "")
    (h : odLookup s.cache key = some (v, e)) (hx : isExpired now e = true) :
    existsKey s now key = (false, { s with cache := odErase s.cache key,
                                           expirations := s.expirations + 1 }) := by
  simp [existsKey, hk, h, hx]

theorem existsKey_live (s : VelocityCache) (now : Int) (key : String)
    (v : Int) (e : Option Int) (hk : ¬ key = "")
    (h : odLookup s.cache key = some (v, e)) (hx : isExpired now e = false) :
    existsKey s now key = (true, s) := by
  simp [existsKey, hk, h, hx]

/-! ### Step invariants -/

/-- One step preserves `maxSize`, keeps the store within capacity, and
never decreases any of the four counters. -/
theorem applyOp_inv (s : VelocityCache) (op : Op) (hpos : 0 < s.maxSize)
    (hle : s.cache.length ≤ s.maxSize) :
    (applyOp s op).maxSize = s.maxSize ∧
    (applyOp s op).cache.length ≤ s.maxSize ∧
    s.hits ≤ (applyOp s op).hits ∧ s.misses ≤ (applyOp s op).misses ∧
    s.evictions ≤ (applyOp s op).evictions ∧
    s.expirations ≤ (applyOp s op).expirations := by
  cases op with
  | getOp now key =>
    by_cases hk : key = ""
    · simp [applyOp, get, hk, hle]
    · cases hl : odLookup s.cache key with
      | none => simp [applyOp, get_absent s now key hk hl, hle]
      | some e =>
        obtain ⟨v, ex⟩ := e
        cases hx : isExpired now ex with
        | false =>
          have h1 := odErase_length_of_lookup s.cache key _ hl
          simp [applyOp, get_live s now key v ex hk hl hx]
          omega
        | true =>
          have h1 := odErase_length_le s.cache key
          simp [applyOp, get_expired s now key v ex hk hl hx]
          omega
  | setOp now key v ttl =>
    by_cases hk : key = ""
    · simp [applyOp, set, hk, hle]
    · cases ht : negTTL ttl with
      | true => simp [applyOp, set, hk, ht, hle]
      | false =>
        cases hl : odLookup s.cache key with
        | some e0 =>
          have h1 := odErase_length_of_lookup s.cache key e0 hl
          simp [applyOp, set_present s now key v ttl e0 hk ht hl]
          omega
        | none =>
          by_cases hfull : s.maxSize ≤ s.cache.length
          · simp [applyOp, set_new_evict s now key v ttl hk ht hl hfull]
            omega
          · simp [applyOp,
              set_new_room s now key v ttl hk ht hl (Nat.not_le.mp hfull)]
            omega
  | delOp now key =>
    by_cases hk : key = ""
    · simp [applyOp, delete, hk, hle]
    · cases hl : odLookup s.cache key with
      | none => simp [applyOp, delete_absent s now key hk hl, hle]
      | some e =>
        obtain ⟨v, ex⟩ := e
        have h1 := odErase_length_le s.cache key
        cases hx : isExpired now ex with
        | false =>
          simp [applyOp, delete_live s now key v ex hk hl hx]
          omega
        | true =>
          simp [applyOp, delete_expired s now key v ex hk hl hx]
          omega
  | existsOp now key =>
    by_cases hk : key = ""
    · simp [applyOp, existsKey, hk, hle]
    · cases hl : odLookup s.cache key with
      | none => simp [applyOp, existsKey_absent s now key hk hl, hle]
      | some e =>
        obtain ⟨v, ex⟩ := e
        cases hx : isExpired now ex with
        | false => simp [applyOp, existsKey_live s now key v ex hk hl hx, hle]
        | true =>
          have h1 := odErase_length_le s.cache key
          simp [applyOp, existsKey_expired s now key v ex hk hl hx]
          omega
  | clearOp => simp [applyOp, clear]

/-- The step invariants hold along any sequence of operations. -/
theorem runOps_inv (ops : List Op) (s : VelocityCache) (hpos : 0 < s.maxSize)
    (hle : s.cache.length ≤ s.maxSize) :
    (ops.foldl applyOp s).maxSize = s.maxSize ∧
    (ops.foldl applyOp s).cache.length ≤ s.maxSize ∧
    s.hits ≤ (ops.foldl applyOp s).hits ∧
    s.misses ≤ (ops.foldl applyOp s).misses ∧
    s.evictions ≤ (ops.foldl applyOp s).evictions ∧
    s.expirations ≤ (ops.foldl applyOp s).expirations := by
  induction ops generalizing s with
  | nil => simpa using hle
  | cons op rest ih =>
    obtain ⟨h1, h2, h3, h4, h5, h6⟩ := applyOp_inv s op hpos hle
    obtain ⟨g1, g2, g3, g4, g5, g6⟩ :=
      ih (applyOp s op) (h1 ▸ hpos) (h1 ▸ h2)
    exact ⟨by simpa [h1] using g1, by simpa [h1] using g2,
      le_trans h3 g3, le_trans h4 g4, le_trans h5 g5, le_trans h6 g6⟩

/-! ### Claim theorems -/

/-- C1: for every sequence of operations on a cache constructed with
positive `max_size`, after each operation completes `size()` is at least
0 and at most `max_size`; in particular `set` never leaves the structure
over capacity between operations. -/
theorem capacity_invariant (m : Int) (s0 : VelocityCache)
    (h0 : mkCache m = .ok s0) (ops : List Op) :
    0 ≤ size (ops.foldl applyOp s0) ∧
    size (ops.foldl applyOp s0) ≤ (ops.foldl applyOp s0).maxSize ∧
    (ops.foldl applyOp s0).maxSize = m.toNat := by
  unfold mkCache at h0
  split at h0
  · exact absurd h0 (by simp)
  · next hm =>
    injection h0 with h0
    subst h0
    have hpos : (0 : Nat) < m.toNat := by omega
    obtain ⟨g1, g2, -⟩ := runOps_inv ops
      { cache := [], maxSize := m.toNat, hits := 0, misses := 0,
        evictions := 0, expirations := 0 } hpos (by simp)
    refine ⟨Nat.zero_le _, ?_, by simpa using g1⟩
    simpa [size, g1] using g2

/-- C1 witness: a concrete cache of capacity 2 stays within capacity
across a sequence that inserts three distinct keys. -/
theorem capacity_invariant_witness :
    0 ≤ size ([Op.setOp 0 "a" 1 none, Op.setOp 0 "b" 2 none,
               Op.setOp 0 "c" 3 none].foldl applyOp
        { cache := [], maxSize := 2, hits := 0, misses := 0,
          evictions := 0, expirations := 0 }) ∧
    size ([Op.setOp 0 "a" 1 none, Op.setOp 0 "b" 2 none,
           Op.setOp 0 "c" 3 none].foldl applyOp
        { cache := [], maxSize := 2, hits := 0, misses := 0,
          evictions := 0, expirations := 0 }) ≤
      ([Op.setOp 0 "a" 1 none, Op.setOp 0 "b" 2 none,
        Op.setOp 0 "c" 3 none].foldl applyOp
        { cache := [], maxSize := 2, hits := 0, misses := 0,
          evictions := 0, expirations := 0 }).maxSize ∧
    ([Op.setOp 0 "a" 1 none, Op.setOp 0 "b" 2 none,
      Op.setOp 0 "c" 3 none].foldl applyOp
        { cache := [], maxSize := 2, hits := 0, misses := 0,
          evictions := 0, expirations := 0 }).maxSize = (2 : Int).toNat :=
  capacity_invariant 2 _ rfl _

/-- C2: inserting a fresh non-empty key into a cache at capacity removes
exactly the least-recently-used (first) entry, increments the eviction
counter by one, leaves the expiration counter (and hits/misses)
untouched even when the victim is itself already expired, and appends
the new entry at the most-recently-used end. -/
theorem set_evicts_lru (s : VelocityCache) (now : Int) (key : String)
    (v : Int) (ttl : Option Int) (hk : key ≠ "") (ht : negTTL ttl = false)
    (habsent : odLookup s.cache key = none) (hfull : size s = s.maxSize) :
    set s now key v ttl =
      .ok { s with cache := s.cache.tail ++ [(key, (v, mkExpiry now ttl))],
                   evictions := s.evictions + 1 } :=
  set_new_evict s now key v ttl hk ht habsent (le_of_eq hfull.symm)

/-- C2 witness: the full cache's LRU victim `"a"` is already expired at
time 5, yet the insertion of `"c"` counts one eviction and no
expiration. -/
theorem set_evicts_lru_witness :
    set { cache := [("a", (1, some 0)), ("b", (2, none))], maxSize := 2,
          hits := 0, misses := 0, evictions := 0, expirations := 0 }
        5 "c" 3 none =
      .ok { cache := [("b", (2, none)), ("c", (3, none))], maxSize := 2,
            hits := 0, misses := 0, evictions := 1, expirations := 0 } :=
  set_evicts_lru _ 5 "c" 3 none (by decide) rfl rfl rfl

/-- C3: `set` on a key already present overwrites value and expiry,
repositions the key to the most-recently-used end, evicts nothing
(all counters unchanged), and leaves `size()` unchanged. -/
theorem set_update_no_evict (s : VelocityCache) (now : Int) (key : String)
    (v : Int) (ttl : Option Int) (e0 : Entry) (hk : key ≠ "")
    (ht : negTTL ttl = false) (hp : odLookup s.cache key = some e0) :
    set s now key v ttl =
      .ok { s with cache := odErase s.cache key ++ [(key, (v, mkExpiry now ttl))] } ∧
    size { s with cache := odErase s.cache key ++ [(key, (v, mkExpiry now ttl))] } =
      size s := by
  refine ⟨set_present s now key v ttl e0 hk ht hp, ?_⟩
  have h1 := odErase_length_of_lookup s.cache key e0 hp
  simp [size]
  omega

/-- C3 witness: the spec's example with `max_size = 2` —
`set(a,1); set(b,2); set(a,3)` leaves size 2 with both keys stored and
`"a"` repositioned to the most-recently-used end. -/
theorem set_update_no_evict_witness :
    set { cache := [("a", (1, none)), ("b", (2, none))], maxSize := 2,
          hits := 0, misses := 0, evictions := 0, expirations := 0 }
        0 "a" 3 none =
      .ok { cache := [("b", (2, none)), ("a", (3, none))], maxSize := 2,
            hits := 0, misses := 0, evictions := 0, expirations := 0 } ∧
    size { cache := [("b", (2, none)), ("a", (3, none))], maxSize := 2,
           hits := 0, misses := 0, evictions := 0, expirations := 0 } = 2 :=
  set_update_no_evict _ 0 "a" 3 none (1, none) (by decide) rfl rfl

/-- C4 counterexample: on the state `[a, b]` (both live, `a` least
recently used), `exists("a")` succeeds but leaves the recency order
`["a", "b"]` — the key is not repositioned to the most-recently-used
end, contradicting the claim that `exists` repositions live keys. -/
theorem exists_no_reposition_cex :
    (existsKey { cache := [("a", (1, none)), ("b", (2, none))], maxSize := 2,
                 hits := 0, misses := 0, evictions := 0,
                 expirations := 0 } 0 "a").1 = true ∧
    keysList (existsKey { cache := [("a", (1, none)), ("b", (2, none))],
                          maxSize := 2, hits := 0, misses := 0,
                          evictions := 0,
                          expirations := 0 } 0 "a").2 = ["a", "b"] :=
  ⟨rfl, rfl⟩

/-- C4 (amended): a successful `get` or `set` on a live present key
repositions it to the most-recently-used end (it becomes the last
element of the recency order), while a successful `exists` on the same
key returns `true` but leaves the cache state — recency order included —
completely unchanged. -/
theorem reposition_on_live_access (s : VelocityCache) (now : Int)
    (key : String) (v0 : Int) (e0 : Option Int) (hk : key ≠ "")
    (hp : odLookup s.cache key = some (v0, e0))
    (hlive : isExpired now e0 = false) :
    get s now key =
      .ok (some v0, { s with cache := odErase s.cache key ++ [(key, (v0, e0))],
                             hits := s.hits + 1 }) ∧
    (∀ v ttl, negTTL ttl = false →
      set s now key v ttl =
        .ok { s with cache := odErase s.cache key ++ [(key, (v, mkExpiry now ttl))] }) ∧
    existsKey s now key = (true, s) :=
  ⟨get_live s now key v0 e0 hk hp hlive,
   fun v ttl ht => set_present s now key v ttl (v0, e0) hk ht hp,
   existsKey_live s now key v0 e0 hk hp hlive⟩

/-- C4 witness: on the concrete state `[a, b]`, `get("a")` and
`set("a", 9)` move `"a"` to the end while `exists("a")` changes
nothing. -/
theorem reposition_on_live_access_witness :
    get { cache := [("a", (1, none)), ("b", (2, none))], maxSize := 2,
          hits := 0, misses := 0, evictions := 0, expirations := 0 } 0 "a" =
      .ok (some 1,
        { cache := [("b", (2, none)), ("a", (1, none))], maxSize := 2,
          hits := 1, misses := 0, evictions := 0, expirations := 0 }) ∧
    set { cache := [("a", (1, none)), ("b", (2, none))], maxSize := 2,
          hits := 0, misses := 0, evictions := 0, expirations := 0 } 0 "a" 9 none =
      .ok { cache := [("b", (2, none)), ("a", (9, none))], maxSize := 2,
            hits := 0, misses := 0, evictions := 0, expirations := 0 } ∧
    existsKey { cache := [("a", (1, none)), ("b", (2, none))], maxSize := 2,
                hits := 0, misses := 0, evictions := 0, expirations := 0 } 0 "a" =
      (true, { cache := [("a", (1, none)), ("b", (2, none))], maxSize := 2,
               hits := 0, misses := 0, evictions := 0, expirations := 0 }) := by
  obtain ⟨h1, h2, h3⟩ :=
    reposition_on_live_access
      { cache := [("a", (1, none)), ("b", (2, none))], maxSize := 2,
        hits := 0, misses := 0, evictions := 0, expirations := 0 }
      0 "a" 1 none (by decide) rfl rfl
  exact ⟨h1, h2 9 none rfl, h3⟩

/-- C5: for every non-empty key, `delete` returns the stored value
exactly when the key was present and live; a present-but-expired key is
still physically removed but the call returns absent and counts one
expiration; an absent key returns absent and changes nothing. -/
theorem delete_returns_live_value (s : VelocityCache) (now : Int)
    (key : String) (hk : key ≠ "") :
    (odLookup s.cache key = none → delete s now key = .ok (none, s)) ∧
    (∀ v e, odLookup s.cache key = some (v, e) → isExpired now e = false →
      delete s now key = .ok (some v, { s with cache := odErase s.cache key })) ∧
    (∀ v e, odLookup s.cache key = some (v, e) → isExpired now e = true →
      delete s now key = .ok (none, { s with cache := odErase s.cache key,
                                             expirations := s.expirations + 1 })) :=
  ⟨fun h => delete_absent s now key hk h,
   fun v e h hx => delete_live s now key v e hk h hx,
   fun v e h hx => delete_expired s now key v e hk h hx⟩

/-- C5 witness: on the state `[a (expired at time 5), b (live)]`,
deleting the absent key `"c"` changes nothing, deleting `"b"` returns
its value, and deleting the expired `"a"` removes it, returns absent and
counts one expiration. -/
theorem delete_returns_live_value_witness :
    delete { cache := [("a", (1, some 0)), ("b", (2, none))], maxSize := 2,
             hits := 0, misses := 0, evictions := 0, expirations := 0 } 5 "c" =
      .ok (none, { cache := [("a", (1, some 0)), ("b", (2, none))], maxSize := 2,
                   hits := 0, misses := 0, evictions := 0, expirations := 0 }) ∧
    delete { cache := [("a", (1, some 0)), ("b", (2, none))], maxSize := 2,
             hits := 0, misses := 0, evictions := 0, expirations := 0 } 5 "b" =
      .ok (some 2, { cache := [("a", (1, some 0))], maxSize := 2,
                     hits := 0, misses := 0, evictions := 0, expirations := 0 }) ∧
    delete { cache := [("a", (1, some 0)), ("b", (2, none))], maxSize := 2,
             hits := 0, misses := 0, evictions := 0, expirations := 0 } 5 "a" =
      .ok (none, { cache := [("b", (2, none))], maxSize := 2,
                   hits := 0, misses := 0, evictions := 0, expirations := 1 }) :=
  ⟨(delete_returns_live_value
      { cache := [("a", (1, some 0)), ("b", (2, none))], maxSize := 2,
        hits := 0, misses := 0, evictions := 0, expirations := 0 }
      5 "c" (by decide)).1 rfl,
   (delete_returns_live_value
      { cache := [("a", (1, some 0)), ("b", (2, none))], maxSize := 2,
        hits := 0, misses := 0, evictions := 0, expirations := 0 }
      5 "b" (by decide)).2.1 2 none rfl rfl,
   (delete_returns_live_value
      { cache := [("a", (1, some 0)), ("b", (2, none))], maxSize := 2,
        hits := 0, misses := 0, evictions := 0, expirations := 0 }
      5 "a" (by decide)).2.2 1 (some 0) rfl rfl⟩

/-- C6: for a key that is stored but already past its expiry and not yet
swept, `contains` (the pure structural check) answers `true` while
`exists` on that same state answers `false`, removes the entry and
counts one expiration. -/
theorem contains_vs_exists_expired (s : VelocityCache) (now : Int)
    (key : String) (v : Int) (e : Option Int) (hk : key ≠ "")
    (hp : odLookup s.cache key = some (v, e)) (hx : isExpired now e = true) :
    contains s key = true ∧
    existsKey s now key = (false, { s with cache := odErase s.cache key,
                                           expirations := s.expirations + 1 }) :=
  ⟨by simp [contains, hp], existsKey_expired s now key v e hk hp hx⟩

/-- C6 witness: at time 5, the key `"a"` stored with expiry 0 is
contained but does not exist; `exists` sweeps it and counts one
expiration. -/
theorem contains_vs_exists_expired_witness :
    contains { cache := [("a", (1, some 0)), ("b", (2, none))], maxSize := 2,
               hits := 0, misses := 0, evictions := 0, expirations := 0 } "a" = true ∧
    existsKey { cache := [("a", (1, some 0)), ("b", (2, none))], maxSize := 2,
                hits := 0, misses := 0, evictions := 0, expirations := 0 } 5 "a" =
      (false, { cache := [("b", (2, none))], maxSize := 2,
                hits := 0, misses := 0, evictions := 0, expirations := 1 }) :=
  contains_vs_exists_expired
    { cache := [("a", (1, some 0)), ("b", (2, none))], maxSize := 2,
      hits := 0, misses := 0, evictions := 0, expirations := 0 }
    5 "a" 1 (some 0) (by decide) rfl rfl

/-- C7: `exists` on the empty key answers `false` without raising and
without touching the state, whereas `get`, `set` and `delete` raise
`InvalidArgument` on the empty key, and `set` also raises on a negative
TTL; a raising call is modelled as returning `.error`, i.e. no new state
is produced and the cache is unmodified. -/
theorem empty_key_validation (s : VelocityCache) (now : Int) :
    existsKey s now "" = (false, s) ∧
    get s now "" = .error .invalidArgument ∧
    (∀ v ttl, set s now "" v ttl = .error .invalidArgument) ∧
    delete s now "" = .error .invalidArgument ∧
    (∀ key v t, t < 0 → set s now key v (some t) = .error .invalidArgument) := by
  refine ⟨by simp [existsKey], by simp [get], fun v ttl => by simp [set],
    by simp [delete], ?_⟩
  intro key v t ht
  by_cases hk : key = ""
  · simp [set, hk]
  · simp [set, hk, negTTL, ht]

/-- C7 witness: validation outcomes at a concrete non-empty state. -/
theorem empty_key_validation_witness :
    existsKey { cache := [("a", (1, none))], maxSize := 2, hits := 0,
                misses := 0, evictions := 0, expirations := 0 } 0 "" =
      (false, { cache := [("a", (1, none))], maxSize := 2, hits := 0,
                misses := 0, evictions := 0, expirations := 0 }) ∧
    get { cache := [("a", (1, none))], maxSize := 2, hits := 0,
          misses := 0, evictions := 0, expirations := 0 } 0 "" =
      .error .invalidArgument ∧
    set { cache := [("a", (1, none))], maxSize := 2, hits := 0,
          misses := 0, evictions := 0, expirations := 0 } 0 "" 1 none =
      .error .invalidArgument ∧
    delete { cache := [("a", (1, none))], maxSize := 2, hits := 0,
             misses := 0, evictions := 0, expirations := 0 } 0 "" =
      .error .invalidArgument ∧
    set { cache := [("a", (1, none))], maxSize := 2, hits := 0,
          misses := 0, evictions := 0, expirations := 0 } 0 "k" 1 (some (-3)) =
      .error .invalidArgument := by
  obtain ⟨h1, h2, h3, h4, h5⟩ :=
    empty_key_validation
      { cache := [("a", (1, none))], maxSize := 2, hits := 0,
        misses := 0, evictions := 0, expirations := 0 } 0
  exact ⟨h1, h2, h3 1 none, h4, h5 "k" 1 (-3) (by decide)⟩

/-- C9: `clear` empties the content (`size() = 0`, any subsequent `get`
on a non-empty key misses) while leaving all four counters exactly as
they were; and along any sequence of operations on an in-capacity state
the four counters never decrease. -/
theorem clear_preserves_metrics (s : VelocityCache) :
    size (clear s) = 0 ∧
    (clear s).hits = s.hits ∧ (clear s).misses = s.misses ∧
    (clear s).evictions = s.evictions ∧
    (clear s).expirations = s.expirations ∧
    (∀ now key, key ≠ "" →
      get (clear s) now key =
        .ok (none, { clear s with misses := s.misses + 1 })) ∧
    (∀ ops : List Op, 0 < s.maxSize → s.cache.length ≤ s.maxSize →
      s.hits ≤ (ops.foldl applyOp s).hits ∧
      s.misses ≤ (ops.foldl applyOp s).misses ∧
      s.evictions ≤ (ops.foldl applyOp s).evictions ∧
      s.expirations ≤ (ops.foldl applyOp s).expirations) := by
  refine ⟨rfl, rfl, rfl, rfl, rfl,
    fun now key hk => get_absent (clear s) now key hk rfl,
    fun ops hpos hle => ?_⟩
  obtain ⟨-, -, h3, h4, h5, h6⟩ := runOps_inv ops s hpos hle
  exact ⟨h3, h4, h5, h6⟩

/-- C9 witness: clearing a concrete state with nonzero counters keeps
all counters and empties the store; a previously stored key then
misses; counters are monotone along a concrete sequence. -/
theorem clear_preserves_metrics_witness :
    size (clear { cache := [("a", (1, none))], maxSize := 2, hits := 3,
                  misses := 1, evictions := 2, expirations := 1 }) = 0 ∧
    (clear { cache := [("a", (1, none))], maxSize := 2, hits := 3,
             misses := 1, evictions := 2, expirations := 1 }).hits = 3 ∧
    (clear { cache := [("a", (1, none))], maxSize := 2, hits := 3,
             misses := 1, evictions := 2, expirations := 1 }).misses = 1 ∧
    (clear { cache := [("a", (1, none))], maxSize := 2, hits := 3,
             misses := 1, evictions := 2, expirations := 1 }).evictions = 2 ∧
    (clear { cache := [("a", (1, none))], maxSize := 2, hits := 3,
             misses := 1, evictions := 2, expirations := 1 }).expirations = 1 ∧
    get (clear { cache := [("a", (1, none))], maxSize := 2, hits := 3,
                 misses := 1, evictions := 2, expirations := 1 }) 0 "a" =
      .ok (none, { cache := [], maxSize := 2, hits := 3, misses := 2,
                   evictions := 2, expirations := 1 }) ∧
    3 ≤ ([Op.getOp 0 "a", Op.clearOp].foldl applyOp
      { cache := [("a", (1, none))], maxSize := 2, hits := 3,
        misses := 1, evictions := 2, expirations := 1 }).hits := by
  obtain ⟨h1, h2, h3, h4, h5, h6, h7⟩ :=
    clear_preserves_metrics
      { cache := [("a", (1, none))], maxSize := 2, hits := 3,
        misses := 1, evictions := 2, expirations := 1 }
  exact ⟨h1, h2, h3, h4, h5, h6 0 "a" (by decide),
    (h7 [Op.getOp 0 "a", Op.clearOp] (by decide) (by decide)).1⟩

/-- C10: `set` and `delete` never change the hit or miss counters, on
any input; a `delete` of a present-but-expired entry increments only the
expiration counter, whereas a `get` of the same entry increments both
the miss and the expiration counters. -/
theorem set_delete_preserve_hit_miss (s : VelocityCache) (now : Int)
    (key : String) :
    (∀ v ttl s1, set s now key v ttl = .ok s1 →
      s1.hits = s.hits ∧ s1.misses = s.misses) ∧
    (∀ r s1, delete s now key = .ok (r, s1) →
      s1.hits = s.hits ∧ s1.misses = s.misses) ∧
    (∀ v e, odLookup s.cache key = some (v, e) → isExpired now e = true →
      key ≠ "" →
      delete s now key =
        .ok (none, { s with cache := odErase s.cache key,
                            expirations := s.expirations + 1 }) ∧
      get s now key =
        .ok (none, { s with cache := odErase s.cache key,
                            misses := s.misses + 1,
                            expirations := s.expirations + 1 })) := by
  refine ⟨?_, ?_, fun v e hp hx hk =>
    ⟨delete_expired s now key v e hk hp hx,
     get_expired s now key v e hk hp hx⟩⟩
  · intro v ttl s1 h
    by_cases hk : key = ""
    · simp [set, hk] at h
    · cases ht : negTTL ttl with
      | true => simp [set, hk, ht] at h
      | false =>
        cases hl : odLookup s.cache key with
        | some e0 =>
          rw [set_present s now key v ttl e0 hk ht hl] at h
          injection h with h
          subst h
          exact ⟨rfl, rfl⟩
        | none =>
          by_cases hfull : s.maxSize ≤ s.cache.length
          · rw [set_new_evict s now key v ttl hk ht hl hfull] at h
            injection h with h
            subst h
            exact ⟨rfl, rfl⟩
          · rw [set_new_room s now key v ttl hk ht hl
              (Nat.not_le.mp hfull)] at h
            injection h with h
            subst h
            exact ⟨rfl, rfl⟩
  · intro r s1 h
    by_cases hk : key = ""
    · simp [delete, hk] at h
    · cases hl : odLookup s.cache key with
      | none =>
        rw [delete_absent s now key hk hl] at h
        injection h with h
        injection h with h1 h2
        subst h2
        exact ⟨rfl, rfl⟩
      | some e0 =>
        obtain ⟨v, ex⟩ := e0
        cases hx : isExpired now ex with
        | true =>
          rw [delete_expired s now key v ex hk hl hx] at h
          injection h with h
          injection h with h1 h2
          subst h2
          exact ⟨rfl, rfl⟩
        | false =>
          rw [delete_live s now key v ex hk hl hx] at h
          injection h with h
          injection h with h1 h2
          subst h2
          exact ⟨rfl, rfl⟩

/-- C10 witness: on a state with nonzero hit/miss counters, a `set`
that evicts keeps hits/misses at 4/2, and on the expired key `"a"` a
`delete` bumps only expirations while a `get` bumps both misses and
expirations. -/
theorem set_delete_preserve_hit_miss_witness :
    ({ cache := [("b", (2, none)), ("c", (3, none))], maxSize := 2,
       hits := 4, misses := 2, evictions := 1,
       expirations := 0 } : VelocityCache).hits =
      ({ cache := [("a", (1, some 0)), ("b", (2, none))], maxSize := 2,
         hits := 4, misses := 2, evictions := 0,
         expirations := 0 } : VelocityCache).hits ∧
    delete { cache := [("a", (1, some 0)), ("b", (2, none))], maxSize := 2,
             hits := 4, misses := 2, evictions := 0, expirations := 0 } 5 "a" =
      .ok (none, { cache := [("b", (2, none))], maxSize := 2, hits := 4,
                   misses := 2, evictions := 0, expirations := 1 }) ∧
    get { cache := [("a", (1, some 0)), ("b", (2, none))], maxSize := 2,
          hits := 4, misses := 2, evictions := 0, expirations := 0 } 5 "a" =
      .ok (none, { cache := [("b", (2, none))], maxSize := 2, hits := 4,
                   misses := 3, evictions := 0, expirations := 1 }) := by
  obtain ⟨hset, -, hboth⟩ :=
    set_delete_preserve_hit_miss
      { cache := [("a", (1, some 0)), ("b", (2, none))], maxSize := 2,
        hits := 4, misses := 2, evictions := 0, expirations := 0 } 5 "c"
  obtain ⟨hd, hg⟩ :=
    (set_delete_preserve_hit_miss
      { cache := [("a", (1, some 0)), ("b", (2, none))], maxSize := 2,
        hits := 4, misses := 2, evictions := 0, expirations := 0 } 5 "a").2.2
      1 (some 0) rfl rfl (by decide)
  exact ⟨(hset 3 none _ rfl).1, hd, hg⟩

end Velocity
